import Mathlib

/-!
Shallow embedding of `src/command_line_parser.cc` (the Triton server
command-line parser): the typed value parsers (`ParseOption<T>`
specializations), the compound option parsers, the port-collision checker
`TritonServerParameters::CheckPortCollision`, and the aggregation /
post-parsing-validation pipeline of `TritonParser::Parse`.

Raw argument strings are modelled as `List Char`; C++ `std::string::find`
(whose `npos` result becomes `-1` after the `int` conversions the source
performs) is modelled as an `Option Nat` index.
-/

namespace TritonCLI

/-- Error raised by the parser. The C++ code throws a single `ParseException`
carrying a message; the constructors here classify the throw sites by kind:
`formatError` for malformed values (including `std::invalid_argument` /
`std::out_of_range` escaping the `stoi`-family calls), `conflictingOptions`
for the mutually-exclusive-flags throw at the end of `TritonParser::Parse`
(carrying both flag names, as the thrown message does). -/
inductive ParseErr where
  | formatError (msg : String)
  | conflictingOptions (flagA flagB : String)
deriving DecidableEq, Repr

/-- Index of the first occurrence of `c` in `s`; models C++
`std::string::find(c)` with `none` standing for `npos`. -/
def charIndexOf (c : Char) : List Char → Option Nat
  | [] => none
  | a :: rest => if a = c then some 0 else (charIndexOf c rest).map (· + 1)

/-- Models C++ `arg.find(c, start)`: the first occurrence of `c` at an index
`≥ start`. -/
def charIndexFrom (c : Char) (s : List Char) (start : Nat) : Option Nat :=
  (charIndexOf c (s.drop start)).map (· + start)

/-- Models `std::tolower` on a byte in the C locale (only ASCII `A`-`Z` are
mapped). -/
def toLowerChar (c : Char) : Char :=
  if 'A' ≤ c ∧ c ≤ 'Z' then Char.ofNat (c.toNat + 32) else c

/-- Models `isspace` in the C locale, as used by the `strtol` family to skip
leading whitespace. -/
def isSpaceChar (c : Char) : Bool :=
  c = ' ' || c = '\t' || c = '\n' || c = '\x0b' || c = '\x0c' || c = '\r'

/-- Decimal digit test used by the `strtol` family (base 10). -/
def isDigitChar (c : Char) : Bool :=
  decide ('0' ≤ c) && decide (c ≤ '9')

/-- Numeric value of the maximal leading run of decimal digits, `none` when
the run is empty (the digit-consumption step of the `strtol` family). -/
def leadingDigitsValue (s : List Char) : Option Nat :=
  let digs := s.takeWhile isDigitChar
  if digs.isEmpty then none
  else some (digs.foldl (fun acc c => acc * 10 + (c.toNat - 48)) 0)

/-- Optional leading sign consumption of the `strtol` family: returns
(isNegative, rest). -/
def splitSign : List Char → Bool × List Char
  | '-' :: t => (true, t)
  | '+' :: t => (false, t)
  | t => (false, t)

/-- Model of `std::stoi(arg)`, which is the source's `ParseOption<int>`
specialization: skip whitespace, consume an optional sign and then the
maximal run of decimal digits; `std::invalid_argument` when there is no
digit, `std::out_of_range` outside the 32-bit `int` range. Characters after
the digit run are ignored (no trailing-garbage check). -/
def ParseOptionInt (arg : List Char) : Except ParseErr Int :=
  let s1 := arg.dropWhile isSpaceChar
  let signed := splitSign s1
  match leadingDigitsValue signed.2 with
  | none => .error (.formatError "stoi: invalid argument")
  | some m =>
    let v : Int := if signed.1 then -(m : Int) else (m : Int)
    if v < -(2 ^ 31 : Int) ∨ (2 ^ 31 - 1 : Int) < v then
      .error (.formatError "stoi: out of range")
    else .ok v

/-- Model of `std::stoll(arg)`, the source's `ParseOption<int64_t>`
specialization; same shape as `ParseOptionInt` with 64-bit bounds. -/
def ParseOptionInt64 (arg : List Char) : Except ParseErr Int :=
  let s1 := arg.dropWhile isSpaceChar
  let signed := splitSign s1
  match leadingDigitsValue signed.2 with
  | none => .error (.formatError "stoll: invalid argument")
  | some m =>
    let v : Int := if signed.1 then -(m : Int) else (m : Int)
    if v < -(2 ^ 63 : Int) ∨ (2 ^ 63 - 1 : Int) < v then
      .error (.formatError "stoll: out of range")
    else .ok v

/-- Model of `std::stoull(arg)`, the source's `ParseOption<uint64_t>`
specialization. As `strtoull` does, a leading `-` is accepted and the
magnitude is negated modulo `2^64`; a magnitude beyond `2^64 - 1` is
`std::out_of_range`. -/
def ParseOptionUInt64 (arg : List Char) : Except ParseErr Nat :=
  let s1 := arg.dropWhile isSpaceChar
  let signed := splitSign s1
  match leadingDigitsValue signed.2 with
  | none => .error (.formatError "stoull: invalid argument")
  | some m =>
    if 2 ^ 64 - 1 < m then .error (.formatError "stoull: out of range")
    else .ok (if signed.1 then (2 ^ 64 - m) % 2 ^ 64 else m)

/-- Model of the `ParseOption<bool>` specialization: lowercase the argument
and compare against the six accepted literals; any other value throws. -/
def ParseOptionBool (arg : List Char) : Except ParseErr Bool :=
  let larg := arg.map toLowerChar
  if larg = "true".toList ∨ larg = "on".toList ∨ larg = "1".toList then .ok true
  else if larg = "false".toList ∨ larg = "off".toList ∨ larg = "0".toList then .ok false
  else .error (.formatError "invalid value for bool option")

/-- Model of `ParsePairOption<int, uint64_t>(arg, ":")` as used for
`--cuda-memory-pool-byte-size`: split at the first `:` (its absence is an
error), parse the left part as `int` and the right part as `uint64_t`. -/
def ParsePairIntUInt64 (arg : List Char) : Except ParseErr (Int × Nat) :=
  match charIndexOf ':' arg with
  | none =>
    .error (.formatError "Cannot parse pair option due to incorrect number of inputs.")
  | some d => do
    let a ← ParseOptionInt (arg.take d)
    let b ← ParseOptionUInt64 (arg.drop (d + 1))
    pure (a, b)

/-- Model of `TritonParser::ParseCacheConfigOption`: requires a comma at a
position `> 0`, then an `=` after the comma; setting and value must be
non-empty. -/
def ParseCacheConfigOption (arg : List Char) :
    Except ParseErr (List Char × List Char × List Char) :=
  match charIndexOf ',' arg with
  | some dn =>
    if 0 < dn then
      match charIndexFrom '=' arg (dn + 1) with
      | some ds =>
        let nameString := arg.take dn
        let settingString := (arg.drop (dn + 1)).take (ds - dn - 1)
        let valueString := arg.drop (ds + 1)
        if settingString = [] ∨ valueString = [] then
          .error (.formatError "cache-config option format error")
        else .ok (nameString, settingString, valueString)
      | none => .error (.formatError "cache-config option format error")
    else .error (.formatError "No cache specified")
  | none => .error (.formatError "No cache specified")

/-- Model of `TritonParser::ParseBackendConfigOption`: a comma at position 0
is an error ("No backend specified"); a missing comma is allowed (global,
backend-agnostic config with empty backend name, and the `=` is searched
from position 0 because `delim_name + 1 = -1 + 1 = 0`); setting and value
must be non-empty. -/
def ParseBackendConfigOption (arg : List Char) :
    Except ParseErr (List Char × List Char × List Char) :=
  match charIndexOf ',' arg with
  | some 0 => .error (.formatError "No backend specified")
  | dnOpt =>
    let searchStart := match dnOpt with | some dn => dn + 1 | none => 0
    let nameString := match dnOpt with | some dn => arg.take dn | none => ([] : List Char)
    match charIndexFrom '=' arg searchStart with
    | some ds =>
      let settingString := (arg.drop searchStart).take (ds - searchStart)
      let valueString := arg.drop (ds + 1)
      if settingString = [] ∨ valueString = [] then
        .error (.formatError "backend-config option format error")
      else .ok (nameString, settingString, valueString)
    | none => .error (.formatError "backend-config option format error")

/-- Model of `TritonParser::ParseHostPolicyOption`: both a comma and an `=`
after it are required; policy name, setting and value must be non-empty. -/
def ParseHostPolicyOption (arg : List Char) :
    Except ParseErr (List Char × List Char × List Char) :=
  match charIndexOf ',' arg with
  | none => .error (.formatError "host-policy option format error")
  | some dn =>
    match charIndexFrom '=' arg (dn + 1) with
    | none => .error (.formatError "host-policy option format error")
    | some ds =>
      let nameString := arg.take dn
      let settingString := (arg.drop (dn + 1)).take (ds - dn - 1)
      let valueString := arg.drop (ds + 1)
      if nameString = [] ∨ settingString = [] ∨ valueString = [] then
        .error (.formatError "host-policy option format error")
      else .ok (nameString, settingString, valueString)

/-- Model of `TritonParser::ParseRateLimiterResourceOption`: colon-delimited
`name:count` or `name:count:device`; a third colon or no colon at all is an
error; `count` and `device` go through `ParseOption<int>`; `device` defaults
to `-1` when absent. -/
def ParseRateLimiterResourceOption (arg : List Char) :
    Except ParseErr (List Char × Int × Int) :=
  match charIndexOf ':' arg with
  | none => .error (.formatError "rate-limit-resource option format error")
  | some d1 =>
    match charIndexFrom ':' arg (d1 + 1) with
    | some d2 =>
      match charIndexFrom ':' arg (d2 + 1) with
      | some _ => .error (.formatError "rate-limit-resource option format error")
      | none => do
        let count ← ParseOptionInt ((arg.drop (d1 + 1)).take (d2 - d1 - 1))
        let device ← ParseOptionInt (arg.drop (d2 + 1))
        pure (arg.take d1, count, device)
    | none => do
      let count ← ParseOptionInt (arg.drop (d1 + 1))
      pure (arg.take d1, count, (-1 : Int))

/-!
Port-collision checker, `TritonServerParameters::CheckPortCollision`.
-/

/-- One element of the `ports` vector built by `CheckPortCollision`: the
tuple `(service name, address, port, has range, range min, range max)`, one
per currently-enabled network endpoint. -/
structure PortEntry where
  service : String
  address : String
  port : Int
  hasRange : Bool
  rangeMin : Int
  rangeMax : Int
deriving DecidableEq, Repr

/-- The two exceptions `CheckPortCollision` can throw, with the data the
messages carry. -/
inductive CollisionError where
  | portRangeViolation (service : String) (port : Int) (lo hi : Int)
  | portConflict (serviceA serviceB : String) (address : String) (port : Int)
deriving DecidableEq, Repr

/-- True exactly on the `portRangeViolation` constructor. -/
def CollisionError.isRangeViolation : CollisionError → Bool
  | .portRangeViolation _ _ _ _ => true
  | _ => false

/-- True exactly on the `portConflict` constructor. -/
def CollisionError.isConflict : CollisionError → Bool
  | .portConflict _ _ _ _ => true
  | _ => false

/-- The inner-loop body of `CheckPortCollision` for one ordered pair
(curr, comparing): skip on differing addresses; throw out-of-range when
`curr` declares a range and `comparing`'s port lies outside it; throw a
conflict when the exact ports coincide. -/
def checkPair (curr comp : PortEntry) : Option CollisionError :=
  if curr.address ≠ comp.address then none
  else if curr.hasRange = true ∧ (comp.port < curr.rangeMin ∨ curr.rangeMax < comp.port) then
    some (.portRangeViolation comp.service comp.port curr.rangeMin curr.rangeMax)
  else if curr.port = comp.port then
    some (.portConflict curr.service comp.service curr.address curr.port)
  else none

/-- Default used to totalize list indexing (all theorems only use in-bounds
indices). -/
def defaultPortEntry : PortEntry :=
  { service := "", address := "", port := 0, hasRange := false, rangeMin := 0, rangeMax := 0 }

/-- Entry of the `ports` vector at index `i`. -/
def entryAt (ports : List PortEntry) (i : Nat) : PortEntry :=
  ports.getD i defaultPortEntry

/-- Start index of the inner loop of `CheckPortCollision` for outer index
`i`: `ports.begin()` when the current entry declares a range, `curr_it + 1`
otherwise. -/
def innerStart (ports : List PortEntry) (i : Nat) : Nat :=
  if (entryAt ports i).hasRange then 0 else i + 1

/-- The inner loop of `CheckPortCollision` for outer index `i`: the first
exception produced while scanning `comparing_it` from `innerStart` to the
end, skipping the self-comparison. -/
def innerScan (ports : List PortEntry) (i : Nat) : Option CollisionError :=
  (List.range' (innerStart ports i) (ports.length - innerStart ports i)).findSome?
    fun j => if j = i then none else checkPair (entryAt ports i) (entryAt ports j)

/-- Model of `TritonServerParameters::CheckPortCollision` on an explicit
list of port entries: `none` when the double loop completes without
throwing, otherwise the first exception thrown. -/
def CheckPortCollision (ports : List PortEntry) : Option CollisionError :=
  (List.range ports.length).findSome? (innerScan ports)

/-- The ordered index pairs (outer, inner) that the double loop of
`CheckPortCollision` enumerates (the loop structure, independent of any
early exit by a thrown exception). -/
def comparisonTrace (ports : List PortEntry) : List (Nat × Nat) :=
  (List.range ports.length).flatMap fun i =>
    (List.range' (innerStart ports i) (ports.length - innerStart ports i)).filterMap
      fun j => if j = i then none else some (i, j)

/-- The condition under which the pair (a, b) triggers the out-of-range
throw when `a` is the current entry and `b` the compared one. -/
def rangeViolationCond (a b : PortEntry) : Prop :=
  a.address = b.address ∧ a.hasRange = true ∧ (b.port < a.rangeMin ∨ a.rangeMax < b.port)

/-- The condition under which the pair (a, b) triggers the port-conflict
throw: same bind address and the exact same port. -/
def portConflictCond (a b : PortEntry) : Prop :=
  a.address = b.address ∧ a.port = b.port

instance (a b : PortEntry) : Decidable (rangeViolationCond a b) := by
  unfold rangeViolationCond; infer_instance

instance (a b : PortEntry) : Decidable (portConflictCond a b) := by
  unfold portConflictCond; infer_instance

/-!
The aggregation and post-parsing-validation pipeline of
`TritonParser::Parse`, restricted to the fields the analysed options write.
A `TritonEvent` is one scanner event (option identifier plus raw argument)
as produced by the `getopt_long` scanning loop; `other` stands for any of
the remaining recognized options, none of which writes the modelled fields.
-/

/-- The `TRITONSERVER_ModelControlMode` values. -/
inductive ControlMode where
  | modeNone
  | modePoll
  | modeExplicit
deriving DecidableEq, Repr

/-- One scanner event relevant to the modelled fields: the option identifier
together with its raw argument string. -/
inductive TritonEvent where
  | modelControlMode (arg : List Char)
  | pollRepoSecs (arg : List Char)
  | responseCacheByteSize (arg : List Char)
  | cacheConfig (arg : List Char)
  | grpcUseSsl (arg : List Char)
  | grpcUseSslMutual (arg : List Char)
  | cudaMemoryPoolByteSize (arg : List Char)
  | other
deriving DecidableEq, Repr

/-- The modelled slice of `TritonServerParameters` (plus the two local
`bool`s of `TritonParser::Parse` tracking cache-flag presence). -/
structure ParseState where
  control_mode : ControlMode
  repository_poll_secs : Int
  cache_config_settings : List (List Char × List (List Char × List Char))
  enable_cache : Bool
  use_ssl : Bool
  use_mutual_auth : Bool
  cuda_pools : List (Int × Nat)
  cache_size_present : Bool
  cache_config_present : Bool
deriving DecidableEq, Repr

/-- Initial parameter values before scanning (defaults come from the
`command_line_parser.h` header; the analysed claims do not depend on them). -/
def initParams : ParseState :=
  { control_mode := .modeNone
    repository_poll_secs := 15
    cache_config_settings := []
    enable_cache := false
    use_ssl := false
    use_mutual_auth := false
    cuda_pools := []
    cache_size_present := false
    cache_config_present := false }

/-- Models `cache_config_settings_[k] = v` (assignment through
`operator[]`): replace the binding for `k` if present, insert it otherwise. -/
def mapSet (m : List (List Char × List (List Char × List Char))) (k : List Char)
    (v : List (List Char × List Char)) : List (List Char × List (List Char × List Char)) :=
  match m with
  | [] => [(k, v)]
  | (k', v') :: rest => if k' = k then (k, v) :: rest else (k', v') :: mapSet rest k v

/-- Models `cache_config_settings_[k].push_back(p)`: append `p` to the
binding for `k`, creating an empty one first if absent (as `operator[]`
does). -/
def mapPush (m : List (List Char × List (List Char × List Char))) (k : List Char)
    (p : List Char × List Char) : List (List Char × List (List Char × List Char)) :=
  match m with
  | [] => [(k, [p])]
  | (k', v') :: rest =>
    if k' = k then (k, v' ++ [p]) :: rest else (k', v') :: mapPush rest k p

/-- The switch body of `TritonParser::Parse` for one scanner event on the
modelled fields. Mirrors the source case by case; an exception from a value
parser aborts with that error. -/
def processEvent (st : ParseState) : TritonEvent → Except ParseErr ParseState
  | .modelControlMode arg =>
    let modeStr := arg.map toLowerChar
    if modeStr = "none".toList then .ok { st with control_mode := .modeNone }
    else if modeStr = "poll".toList then .ok { st with control_mode := .modePoll }
    else if modeStr = "explicit".toList then .ok { st with control_mode := .modeExplicit }
    else .error (.formatError "invalid argument for --model-control-mode")
  | .pollRepoSecs arg =>
    match ParseOptionInt arg with
    | .error e => .error e
    | .ok v => .ok { st with repository_poll_secs := v }
  | .responseCacheByteSize arg =>
    match ParseOptionInt64 arg with
    | .error e => .error e
    | .ok v =>
      .ok { st with
        cache_size_present := true
        cache_config_settings :=
          mapSet st.cache_config_settings "local".toList
            [("size".toList, (toString v).toList)] }
  | .cacheConfig arg =>
    match ParseCacheConfigOption arg with
    | .error e => .error e
    | .ok setting =>
      .ok { st with
        cache_config_present := true
        cache_config_settings :=
          mapPush st.cache_config_settings setting.1 (setting.2.1, setting.2.2) }
  | .grpcUseSsl arg =>
    match ParseOptionBool arg with
    | .error e => .error e
    | .ok v => .ok { st with use_ssl := v }
  | .grpcUseSslMutual arg =>
    match ParseOptionBool arg with
    | .error e => .error e
    | .ok v => .ok { st with use_mutual_auth := v, use_ssl := true }
  | .cudaMemoryPoolByteSize arg =>
    match ParsePairIntUInt64 arg with
    | .error e => .error e
    | .ok p => .ok { st with cuda_pools := st.cuda_pools ++ [p] }
  | .other => .ok st

/-- The scanning loop of `TritonParser::Parse`: fold `processEvent` over the
event sequence, aborting at the first exception. -/
def aggregateEventsFrom (st : ParseState) : List TritonEvent → Except ParseErr ParseState
  | [] => .ok st
  | e :: rest =>
    match processEvent st e with
    | .ok st' => aggregateEventsFrom st' rest
    | .error err => .error err

/-- Step 3 of `TritonParser::Parse` (post-parsing validation) on the
modelled fields, in source order: force the poll interval to zero outside
poll mode; reject the `--response-cache-byte-size` / `--cache-config`
conflict; derive `enable_cache_`. -/
def postValidate (pre : ParseState) : Except ParseErr ParseState :=
  let mid :=
    if pre.control_mode ≠ ControlMode.modePoll then
      { pre with repository_poll_secs := 0 }
    else pre
  if mid.cache_size_present ∧ mid.cache_config_present then
    .error (.conflictingOptions "--response-cache-byte-size" "--cache-config")
  else .ok { mid with enable_cache := mid.cache_size_present || mid.cache_config_present }

/-- Model of `TritonParser::Parse` on a scanner-event sequence: aggregate
the events from the initial parameters, then run post-parsing validation. -/
def tritonParse (events : List TritonEvent) : Except ParseErr ParseState :=
  match aggregateEventsFrom initParams events with
  | .error e => .error e
  | .ok pre => postValidate pre

/-- True exactly on `responseCacheByteSize` events (the deprecated legacy
single-value cache-size flag). -/
def isCacheSizeEvent : TritonEvent → Bool
  | .responseCacheByteSize _ => true
  | _ => false

/-- True exactly on `cacheConfig` events (the newer multi-setting
cache-config flag). -/
def isCacheConfigEvent : TritonEvent → Bool
  | .cacheConfig _ => true
  | _ => false

/-- The (device, size) pairs successfully parsed from the
`--cuda-memory-pool-byte-size` events of a sequence, in order. -/
def cudaPairsOf (events : List TritonEvent) : List (Int × Nat) :=
  events.filterMap fun e =>
    match e with
    | .cudaMemoryPoolByteSize arg => (ParsePairIntUInt64 arg).toOption
    | _ => none

/-- Models the in-order marshal of `cuda_pools_` into the server options
(the `TRITONSERVER_ServerOptionsSetCudaMemoryPoolByteSize` loop of
`BuildTritonServerOptions`), where each call overwrites the byte size held
for its device — the overwrite semantics the option's help text documents
("Subsequent uses will overwrite previous uses for the same GPU device"). -/
def applyCudaPools (pools : List (Int × Nat)) (m : Int → Option Nat) : Int → Option Nat :=
  pools.foldl (fun acc p => fun d => if d = p.1 then some p.2 else acc d) m

/-- The size carried by the last pair for device `d`, if any. -/
def lastSizeFor (pools : List (Int × Nat)) (d : Int) : Option Nat :=
  pools.foldl (fun acc p => if p.1 = d then some p.2 else acc) none

/-!
Lemmas about `charIndexOf` / `charIndexFrom`.
-/

theorem charIndexOf_eq_none_iff {c : Char} {s : List Char} :
    charIndexOf c s = none ↔ c ∉ s := by
  induction s with
  | nil => simp [charIndexOf]
  | cons a rest ih =>
    by_cases h : a = c
    · simp [charIndexOf, h]
    · simp only [charIndexOf, if_neg h, Option.map_eq_none', ih, List.mem_cons, not_or]
      exact ⟨fun hr => ⟨fun hs => h hs.symm, hr⟩, fun hp => hp.2⟩

theorem charIndexOf_split {c : Char} {s : List Char} {i : Nat}
    (h : charIndexOf c s = some i) :
    s = s.take i ++ c :: s.drop (i + 1) ∧ c ∉ s.take i ∧ i < s.length := by
  induction s generalizing i with
  | nil => simp [charIndexOf] at h
  | cons a rest ih =>
    by_cases ha : a = c
    · simp only [charIndexOf, if_pos ha] at h
      cases h
      subst ha
      simp
    · simp only [charIndexOf, if_neg ha, Option.map_eq_some'] at h
      obtain ⟨i', hi', rfl⟩ := h
      obtain ⟨hsplit, hnot, hlen⟩ := ih hi'
      refine ⟨?_, ?_, ?_⟩
      · simpa [List.take_succ_cons, List.drop_succ_cons] using congrArg (a :: ·) hsplit
      · simp only [List.take_succ_cons, List.mem_cons, not_or]
        exact ⟨fun hc => ha hc.symm, hnot⟩
      · simpa using Nat.succ_lt_succ hlen

theorem charIndexOf_append_left {c : Char} {n t : List Char} (hn : c ∉ n) :
    charIndexOf c (n ++ c :: t) = some n.length := by
  induction n with
  | nil => simp [charIndexOf]
  | cons a rest ih =>
    simp only [List.mem_cons, not_or] at hn
    simp only [List.cons_append, charIndexOf, if_neg (fun h : a = c => hn.1 h.symm),
      List.length_cons]
    rw [show rest.append (c :: t) = rest ++ c :: t from rfl, ih hn.2, Option.map_some']

theorem charIndexOf_append_none {c : Char} {n t : List Char} (hn : c ∉ n) (ht : c ∉ t) :
    charIndexOf c (n ++ t) = none := by
  rw [charIndexOf_eq_none_iff]
  simp only [List.mem_append, not_or]
  exact ⟨hn, ht⟩

theorem charIndexFrom_eq {c : Char} {s : List Char} {start : Nat} :
    charIndexFrom c s start = (charIndexOf c (s.drop start)).map (· + start) := rfl

/-!
Claim C3 (code bug) and claim C9.
-/

/-- C3: the typed value parser is claimed to reject any string that is not a
complete literal of the target type, with `parse<int>("12x")` failing. The
source's own comment states the specializations exist so the argument is
properly validated (e.g. parsing "1.4" as int must report an error), but the
`ParseOption<int>` specialization is `std::stoi`, which ignores trailing
characters: it accepts "12x" as 12 and "1.4" as 1. This theorem evaluates
the embedded code at the failing inputs. -/
theorem parseOptionInt_accepts_trailing_garbage :
    ParseOptionInt "12x".toList = .ok 12 ∧
    ParseOptionInt "1.4".toList = .ok 1 ∧
    ParseOptionInt "12".toList = .ok 12 :=
  ⟨by rfl, by rfl, by rfl⟩

/-- C9: boolean parsing is case-insensitive; a string whose lowercase form
is "true", "on" or "1" parses to `true`, one whose lowercase form is
"false", "off" or "0" parses to `false`, and anything else is a
`FormatError`. -/
theorem parseOptionBool_spec (s : List Char) :
    (s.map toLowerChar ∈ ["true".toList, "on".toList, "1".toList] →
      ParseOptionBool s = .ok true) ∧
    (s.map toLowerChar ∈ ["false".toList, "off".toList, "0".toList] →
      ParseOptionBool s = .ok false) ∧
    (s.map toLowerChar ∉ ["true".toList, "on".toList, "1".toList] →
      s.map toLowerChar ∉ ["false".toList, "off".toList, "0".toList] →
      ParseOptionBool s = .error (.formatError "invalid value for bool option")) := by
  refine ⟨?_, ?_, ?_⟩
  · intro h
    simp only [List.mem_cons, List.not_mem_nil, or_false] at h
    rcases h with h | h | h <;> simp [ParseOptionBool, h]
  · intro h
    simp only [List.mem_cons, List.not_mem_nil, or_false] at h
    rcases h with h | h | h <;> simp [ParseOptionBool, h]
  · intro h1 h2
    simp only [List.mem_cons, List.not_mem_nil, or_false, not_or] at h1 h2
    have g1 : ¬(s.map toLowerChar = "true".toList ∨ s.map toLowerChar = "on".toList ∨
        s.map toLowerChar = "1".toList) := by tauto
    have g2 : ¬(s.map toLowerChar = "false".toList ∨ s.map toLowerChar = "off".toList ∨
        s.map toLowerChar = "0".toList) := by tauto
    simp only [ParseOptionBool]
    rw [if_neg g1, if_neg g2]

/-- Witness for C9: instantiation at "TRUE", "off" and "banana". -/
theorem parseOptionBool_spec_witness :
    ParseOptionBool "TRUE".toList = .ok true ∧
    ParseOptionBool "off".toList = .ok false ∧
    ParseOptionBool "banana".toList = .error (.formatError "invalid value for bool option") :=
  ⟨(parseOptionBool_spec "TRUE".toList).1 (by decide),
   (parseOptionBool_spec "off".toList).2.1 (by decide),
   (parseOptionBool_spec "banana".toList).2.2 (by decide) (by decide)⟩

theorem take_append_cons (n t : List Char) (c : Char) :
    (n ++ c :: t).take n.length = n :=
  List.take_left n (c :: t)

theorem drop_append_cons (n t : List Char) (c : Char) :
    (n ++ c :: t).drop (n.length + 1) = t := by
  rw [← List.drop_drop, List.drop_left]
  rfl

theorem drop_append_cons_add (n t : List Char) (c : Char) (k : Nat) :
    (n ++ c :: t).drop (n.length + 1 + k) = t.drop k := by
  rw [← List.drop_drop, drop_append_cons]

/-- C6: the rate-limit resource parser: it rejects a string with no colon;
on `name:count` it parses `count` as int and defaults the device to `-1`;
on `name:count:device` it parses both integers; a third colon is an error.
The concrete examples of the claim are included. -/
theorem parseRateLimiterResource_spec (name count device extra arg : List Char) :
    ((':' : Char) ∉ arg →
      ParseRateLimiterResourceOption arg =
        .error (.formatError "rate-limit-resource option format error")) ∧
    ((':' : Char) ∉ name → (':' : Char) ∉ count →
      ParseRateLimiterResourceOption (name ++ ':' :: count) =
        (ParseOptionInt count).map fun k => (name, k, (-1 : Int))) ∧
    ((':' : Char) ∉ name → (':' : Char) ∉ count → (':' : Char) ∉ device →
      ParseRateLimiterResourceOption (name ++ ':' :: (count ++ ':' :: device)) =
        (ParseOptionInt count).bind fun k =>
          (ParseOptionInt device).map fun dv => (name, k, dv)) ∧
    ((':' : Char) ∉ name → (':' : Char) ∉ count → (':' : Char) ∈ extra →
      ParseRateLimiterResourceOption (name ++ ':' :: (count ++ ':' :: extra)) =
        .error (.formatError "rate-limit-resource option format error")) ∧
    (ParseRateLimiterResourceOption "GPU_UTIL:4".toList =
        .ok ("GPU_UTIL".toList, 4, -1) ∧
     ParseRateLimiterResourceOption "GPU_UTIL:4:0".toList =
        .ok ("GPU_UTIL".toList, 4, 0) ∧
     ParseRateLimiterResourceOption "GPU_UTIL:4:0:1".toList =
        .error (.formatError "rate-limit-resource option format error")) := by
  refine ⟨?_, ?_, ?_, ?_, by rfl, by rfl, by rfl⟩
  · intro h
    simp [ParseRateLimiterResourceOption, charIndexOf_eq_none_iff.2 h]
  · intro hn hc
    have h1 : charIndexOf ':' (name ++ ':' :: count) = some name.length :=
      charIndexOf_append_left hn
    have h2 : charIndexFrom ':' (name ++ ':' :: count) (name.length + 1) = none := by
      rw [charIndexFrom_eq, drop_append_cons, charIndexOf_eq_none_iff.2 hc]
      rfl
    simp only [ParseRateLimiterResourceOption, h1, h2, drop_append_cons, take_append_cons]
    cases ParseOptionInt count <;> rfl
  · intro hn hc hd
    have h1 : charIndexOf ':' (name ++ ':' :: (count ++ ':' :: device)) = some name.length :=
      charIndexOf_append_left hn
    have h2 : charIndexFrom ':' (name ++ ':' :: (count ++ ':' :: device)) (name.length + 1) =
        some (count.length + (name.length + 1)) := by
      rw [charIndexFrom_eq, drop_append_cons, charIndexOf_append_left hc]
      rfl
    have h3 : charIndexFrom ':' (name ++ ':' :: (count ++ ':' :: device))
        (count.length + (name.length + 1) + 1) = none := by
      rw [charIndexFrom_eq,
        show count.length + (name.length + 1) + 1 = name.length + 1 + (count.length + 1) by omega,
        drop_append_cons_add, drop_append_cons, charIndexOf_eq_none_iff.2 hd]
      rfl
    have hcount : ((name ++ ':' :: (count ++ ':' :: device)).drop (name.length + 1)).take
        (count.length + (name.length + 1) - name.length - 1) = count := by
      rw [drop_append_cons,
        show count.length + (name.length + 1) - name.length - 1 = count.length by omega,
        take_append_cons]
    have hdev : (name ++ ':' :: (count ++ ':' :: device)).drop
        (count.length + (name.length + 1) + 1) = device := by
      rw [show count.length + (name.length + 1) + 1 = name.length + 1 + (count.length + 1) by
          omega,
        drop_append_cons_add, drop_append_cons]
    simp only [ParseRateLimiterResourceOption, h1, h2, h3, hcount, hdev, take_append_cons]
    cases ParseOptionInt count
    · rfl
    · cases ParseOptionInt device <;> rfl
  · intro hn hc he
    have h1 : charIndexOf ':' (name ++ ':' :: (count ++ ':' :: extra)) = some name.length :=
      charIndexOf_append_left hn
    have h2 : charIndexFrom ':' (name ++ ':' :: (count ++ ':' :: extra)) (name.length + 1) =
        some (count.length + (name.length + 1)) := by
      rw [charIndexFrom_eq, drop_append_cons, charIndexOf_append_left hc]
      rfl
    have h3 : ∃ k, charIndexFrom ':' (name ++ ':' :: (count ++ ':' :: extra))
        (count.length + (name.length + 1) + 1) = some k := by
      rw [charIndexFrom_eq,
        show count.length + (name.length + 1) + 1 = name.length + 1 + (count.length + 1) by omega,
        drop_append_cons_add, drop_append_cons]
      rcases hk : charIndexOf ':' extra with _ | k
      · exact absurd (charIndexOf_eq_none_iff.1 hk) (by simpa using he)
      · exact ⟨k + (name.length + 1 + (count.length + 1)), by
          simp [hk, Nat.add_comm, Nat.add_assoc, Nat.add_left_comm]⟩
    obtain ⟨k, h3⟩ := h3
    simp only [ParseRateLimiterResourceOption, h1, h2, h3]

/-- Witness for C6: instantiation at the claim's concrete inputs. -/
theorem parseRateLimiterResource_spec_witness :
    ParseRateLimiterResourceOption "GPUUTIL".toList =
      .error (.formatError "rate-limit-resource option format error") ∧
    ParseRateLimiterResourceOption ("GPU_UTIL".toList ++ ':' :: "4".toList) =
      (ParseOptionInt "4".toList).map (fun k => ("GPU_UTIL".toList, k, (-1 : Int))) ∧
    ParseRateLimiterResourceOption
        ("GPU_UTIL".toList ++ ':' :: ("4".toList ++ ':' :: "0".toList)) =
      (ParseOptionInt "4".toList).bind (fun k =>
        (ParseOptionInt "0".toList).map fun dv => ("GPU_UTIL".toList, k, dv)) ∧
    ParseRateLimiterResourceOption
        ("GPU_UTIL".toList ++ ':' :: ("4".toList ++ ':' :: "0:1".toList)) =
      .error (.formatError "rate-limit-resource option format error") := by
  have h := parseRateLimiterResource_spec "GPU_UTIL".toList "4".toList "0".toList
    "0:1".toList "GPUUTIL".toList
  exact ⟨h.1 (by decide), h.2.1 (by decide) (by decide),
    h.2.2.1 (by decide) (by decide) (by decide),
    h.2.2.2.1 (by decide) (by decide) (by decide)⟩

theorem splitAt_comma_eq (arg : List Char) (dn ds : Nat)
    (hdn : charIndexOf ',' arg = some dn)
    (hds : charIndexFrom '=' arg (dn + 1) = some ds) :
    arg = arg.take dn ++
        ',' :: ((arg.drop (dn + 1)).take (ds - dn - 1) ++ '=' :: arg.drop (ds + 1)) ∧
      (',' : Char) ∉ arg.take dn ∧
      ('=' : Char) ∉ (arg.drop (dn + 1)).take (ds - dn - 1) ∧
      dn < arg.length := by
  obtain ⟨hsplit, hnmem, hlen⟩ := charIndexOf_split hdn
  rw [charIndexFrom_eq, Option.map_eq_some'] at hds
  obtain ⟨e, he, rfl⟩ := hds
  obtain ⟨hsplit2, hnmem2, _⟩ := charIndexOf_split he
  have he1 : e + (dn + 1) - dn - 1 = e := by omega
  have he2 : (arg.drop (dn + 1)).drop (e + 1) = arg.drop (e + (dn + 1) + 1) := by
    rw [List.drop_drop]
    congr 1
    omega
  refine ⟨?_, hnmem, ?_, hlen⟩
  · conv_lhs => rw [hsplit]
    rw [he1, ← he2, ← hsplit2]
  · rw [he1]
    exact hnmem2

theorem splitAt_eq_only (arg : List Char) (ds : Nat)
    (hds : charIndexFrom '=' arg 0 = some ds) :
    arg = arg.take ds ++ '=' :: arg.drop (ds + 1) ∧ ('=' : Char) ∉ arg.take ds := by
  rw [charIndexFrom_eq, List.drop_zero, Option.map_eq_some'] at hds
  obtain ⟨e, he, rfl⟩ := hds
  obtain ⟨hsplit, hnmem, _⟩ := charIndexOf_split he
  simpa using ⟨hsplit, hnmem⟩

/-- C4 counterexample: the backend-config parser accepts a string with no
comma at all (backend-agnostic global setting), yielding an empty group
name, whereas the claim says absence of a comma is a `FormatError` for all
three named-setting parsers. -/
theorem parseBackendConfig_accepts_no_comma :
    ParseBackendConfigOption "key=value".toList =
      .ok ([], "key".toList, "value".toList) := by
  rfl

/-- C4 amended: the cache and host-policy parsers reject absence of a comma
or a comma at position 0; the backend parser rejects a comma at position 0
but accepts absence of a comma (empty group name). Every successful parse
splits the string at the first comma into the group name and at the first
`=` after that comma into key and value, with key and value non-empty (and,
for backend without a comma, at the first `=` of the whole string with an
empty group name). -/
theorem namedSettingParsers_spec (arg n k v : List Char) :
    (charIndexOf ',' arg = none →
      ParseCacheConfigOption arg = .error (.formatError "No cache specified") ∧
      ParseHostPolicyOption arg =
        .error (.formatError "host-policy option format error")) ∧
    (charIndexOf ',' arg = some 0 →
      ParseCacheConfigOption arg = .error (.formatError "No cache specified") ∧
      ParseBackendConfigOption arg = .error (.formatError "No backend specified") ∧
      ParseHostPolicyOption arg =
        .error (.formatError "host-policy option format error")) ∧
    (ParseCacheConfigOption arg = .ok (n, k, v) →
      arg = n ++ ',' :: (k ++ '=' :: v) ∧ n ≠ [] ∧ k ≠ [] ∧ v ≠ [] ∧
        (',' : Char) ∉ n ∧ ('=' : Char) ∉ k) ∧
    (ParseHostPolicyOption arg = .ok (n, k, v) →
      arg = n ++ ',' :: (k ++ '=' :: v) ∧ n ≠ [] ∧ k ≠ [] ∧ v ≠ [] ∧
        (',' : Char) ∉ n ∧ ('=' : Char) ∉ k) ∧
    (ParseBackendConfigOption arg = .ok (n, k, v) →
      (arg = n ++ ',' :: (k ++ '=' :: v) ∧ n ≠ [] ∧ k ≠ [] ∧ v ≠ [] ∧
        (',' : Char) ∉ n ∧ ('=' : Char) ∉ k) ∨
      (n = [] ∧ arg = k ++ '=' :: v ∧ (',' : Char) ∉ arg ∧ k ≠ [] ∧ v ≠ [] ∧
        ('=' : Char) ∉ k)) := by
  refine ⟨?_, ?_, ?_, ?_, ?_⟩
  · intro hdn
    constructor
    · simp [ParseCacheConfigOption, hdn]
    · simp [ParseHostPolicyOption, hdn]
  · intro hdn
    refine ⟨by simp [ParseCacheConfigOption, hdn], by simp [ParseBackendConfigOption, hdn], ?_⟩
    simp only [ParseHostPolicyOption, hdn]
    rcases hds : charIndexFrom '=' arg (0 + 1) with _ | ds <;> simp [hds]
  · intro h
    rcases hdn : charIndexOf ',' arg with _ | dn
    · simp [ParseCacheConfigOption, hdn] at h
    simp only [ParseCacheConfigOption, hdn] at h
    by_cases hpos : 0 < dn
    · rw [if_pos hpos] at h
      rcases hds : charIndexFrom '=' arg (dn + 1) with _ | ds
      · simp [hds] at h
      simp only [hds] at h
      by_cases hemp : (arg.drop (dn + 1)).take (ds - dn - 1) = [] ∨ arg.drop (ds + 1) = []
      · rw [if_pos hemp] at h
        exact absurd h (by simp)
      rw [if_neg hemp] at h
      simp only [Except.ok.injEq, Prod.mk.injEq] at h
      obtain ⟨rfl, rfl, rfl⟩ := h
      obtain ⟨hsplit, hn1, hk1, hlen⟩ := splitAt_comma_eq arg dn ds hdn hds
      push_neg at hemp
      refine ⟨hsplit, ?_, hemp.1, hemp.2, hn1, hk1⟩
      have hlt : (arg.take dn).length = dn := by
        rw [List.length_take]
        omega
      intro hnil
      rw [hnil] at hlt
      simp at hlt
      omega
    · rw [if_neg hpos] at h
      exact absurd h (by simp)
  · intro h
    rcases hdn : charIndexOf ',' arg with _ | dn
    · simp [ParseHostPolicyOption, hdn] at h
    simp only [ParseHostPolicyOption, hdn] at h
    rcases hds : charIndexFrom '=' arg (dn + 1) with _ | ds
    · simp [hds] at h
    simp only [hds] at h
    by_cases hemp : arg.take dn = [] ∨ (arg.drop (dn + 1)).take (ds - dn - 1) = [] ∨
        arg.drop (ds + 1) = []
    · rw [if_pos hemp] at h
      exact absurd h (by simp)
    rw [if_neg hemp] at h
    simp only [Except.ok.injEq, Prod.mk.injEq] at h
    obtain ⟨rfl, rfl, rfl⟩ := h
    obtain ⟨hsplit, hn1, hk1, _⟩ := splitAt_comma_eq arg dn ds hdn hds
    push_neg at hemp
    exact ⟨hsplit, hemp.1, hemp.2.1, hemp.2.2, hn1, hk1⟩
  · intro h
    rcases hdn : charIndexOf ',' arg with _ | dn
    · -- no comma: global backend config
      simp only [ParseBackendConfigOption, hdn] at h
      rcases hds : charIndexFrom '=' arg 0 with _ | ds
      · simp [hds] at h
      simp only [hds] at h
      by_cases hemp : (arg.drop 0).take (ds - 0) = [] ∨ arg.drop (ds + 1) = []
      · rw [if_pos hemp] at h
        exact absurd h (by simp)
      rw [if_neg hemp] at h
      simp only [Except.ok.injEq, Prod.mk.injEq] at h
      obtain ⟨rfl, rfl, rfl⟩ := h
      obtain ⟨hsplit, hk1⟩ := splitAt_eq_only arg ds hds
      push_neg at hemp
      refine Or.inr ⟨rfl, ?_, charIndexOf_eq_none_iff.1 hdn, ?_, hemp.2, ?_⟩
      · simpa using hsplit
      · simpa using hemp.1
      · simpa using hk1
    · -- comma present at index dn; dn = 0 is rejected, dn = dm + 1 is the named case
      rcases dn with _ | dm
      · simp [ParseBackendConfigOption, hdn] at h
      simp only [ParseBackendConfigOption, hdn] at h
      rcases hds : charIndexFrom '=' arg (dm + 1 + 1) with _ | ds
      · simp [hds] at h
      simp only [hds] at h
      by_cases hemp : (arg.drop (dm + 1 + 1)).take (ds - (dm + 1 + 1)) = [] ∨
          arg.drop (ds + 1) = []
      · rw [if_pos hemp] at h
        exact absurd h (by simp)
      rw [if_neg hemp] at h
      simp only [Except.ok.injEq, Prod.mk.injEq] at h
      obtain ⟨rfl, rfl, rfl⟩ := h
      obtain ⟨hsplit, hn1, hk1, hlen⟩ := splitAt_comma_eq arg (dm + 1) ds hdn hds
      push_neg at hemp
      have htake : ds - (dm + 1 + 1) = ds - (dm + 1) - 1 := by omega
      rw [htake] at hemp
      refine Or.inl ⟨by rw [← htake] at hsplit; exact hsplit, ?_, hemp.1, hemp.2, hn1, ?_⟩
      · have hlt : (arg.take (dm + 1)).length = dm + 1 := by
          rw [List.length_take]
          omega
        intro hnil
        rw [hnil] at hlt
        simp at hlt
      · rw [← htake] at hk1
        exact hk1

/-- Witness for C4: instantiation of the amended named-setting-parser
theorem at concrete inputs. -/
theorem namedSettingParsers_spec_witness :
    (ParseCacheConfigOption "nocomma".toList = .error (.formatError "No cache specified") ∧
     ParseHostPolicyOption "nocomma".toList =
       .error (.formatError "host-policy option format error")) ∧
    (ParseCacheConfigOption ",size=1".toList = .error (.formatError "No cache specified") ∧
     ParseBackendConfigOption ",size=1".toList = .error (.formatError "No backend specified") ∧
     ParseHostPolicyOption ",size=1".toList =
       .error (.formatError "host-policy option format error")) ∧
    ("local,size=1048576".toList =
        "local".toList ++ ',' :: ("size".toList ++ '=' :: "1048576".toList) ∧
      "local".toList ≠ [] ∧ "size".toList ≠ [] ∧ "1048576".toList ≠ [] ∧
      (',' : Char) ∉ "local".toList ∧ ('=' : Char) ∉ "size".toList) := by
  have h1 := namedSettingParsers_spec "nocomma".toList [] [] []
  have h2 := namedSettingParsers_spec ",size=1".toList [] [] []
  have h3 := namedSettingParsers_spec "local,size=1048576".toList "local".toList
    "size".toList "1048576".toList
  exact ⟨h1.1 (by decide), h2.2.1 (by decide), h3.2.2.1 (by rfl)⟩

/-!
Lemmas for the port-collision checker.
-/

theorem mem_range'_sub {s n j : Nat} : j ∈ List.range' s (n - s) ↔ s ≤ j ∧ j < n := by
  simp only [List.mem_range', one_mul]
  constructor
  · rintro ⟨t, ht, rfl⟩
    omega
  · rintro ⟨h1, h2⟩
    exact ⟨j - s, by omega, by omega⟩

theorem entryAt_eq_get (ports : List PortEntry) (i : Nat) (hi : i < ports.length) :
    entryAt ports i = ports.get ⟨i, hi⟩ := by
  simp [entryAt, List.getD_eq_getElem?_getD, List.getElem?_eq_getElem hi]

theorem checkPair_eq_none_iff (a b : PortEntry) :
    checkPair a b = none ↔ ¬rangeViolationCond a b ∧ ¬portConflictCond a b := by
  by_cases h1 : a.address = b.address
  · by_cases h2 : a.hasRange = true ∧ (b.port < a.rangeMin ∨ a.rangeMax < b.port)
    · simp [checkPair, h1, h2, rangeViolationCond, portConflictCond]
    · by_cases h3 : a.port = b.port
      · simp [checkPair, h1, h2, h3, rangeViolationCond, portConflictCond]
      · simp [checkPair, h1, h2, h3, rangeViolationCond, portConflictCond]
  · simp [checkPair, h1, rangeViolationCond, portConflictCond]

theorem checkPair_flip_of_no_range {a b : PortEntry} (h : checkPair b a = none)
    (hr : a.hasRange = false) : checkPair a b = none := by
  rw [checkPair_eq_none_iff] at h ⊢
  obtain ⟨hrv, hcf⟩ := h
  constructor
  · intro hx
    rw [hx.2.1] at hr
    cases hr
  · intro hx
    exact hcf ⟨hx.1.symm, hx.2.symm⟩

theorem CheckPortCollision_none_iff_reachable (ports : List PortEntry) :
    CheckPortCollision ports = none ↔
      ∀ i j, i < ports.length → j < ports.length → j ≠ i → innerStart ports i ≤ j →
        checkPair (entryAt ports i) (entryAt ports j) = none := by
  unfold CheckPortCollision innerScan
  rw [List.findSome?_eq_none_iff]
  constructor
  · intro H i j hi hj hne hstart
    have h1 := H i (by simpa [List.mem_range] using hi)
    rw [List.findSome?_eq_none_iff] at h1
    have h2 := h1 j (mem_range'_sub.2 ⟨hstart, hj⟩)
    rwa [if_neg hne] at h2
  · intro H i hi
    rw [List.findSome?_eq_none_iff]
    intro j hj
    rcases eq_or_ne j i with rfl | hne
    · simp
    · rw [if_neg hne]
      have hmem := mem_range'_sub.1 hj
      exact H i j (by simpa [List.mem_range] using hi) hmem.2 hne hmem.1

theorem CheckPortCollision_none_iff_allPairs (ports : List PortEntry) :
    CheckPortCollision ports = none ↔
      ∀ i j, i < ports.length → j < ports.length → i ≠ j →
        checkPair (entryAt ports i) (entryAt ports j) = none := by
  rw [CheckPortCollision_none_iff_reachable]
  constructor
  · intro H i j hi hj hne
    by_cases hreach : innerStart ports i ≤ j
    · exact H i j hi hj (Ne.symm hne) hreach
    · -- unreachable: i has no range and j < i + 1, i.e. j < i; flip the pair
      have hr : (entryAt ports i).hasRange = false := by
        unfold innerStart at hreach
        by_cases hb : (entryAt ports i).hasRange
        · rw [if_pos hb] at hreach
          omega
        · simpa using hb
      have hji : innerStart ports j ≤ i := by
        unfold innerStart at hreach ⊢
        rw [if_neg (by simpa using hr)] at hreach
        split
        · omega
        · omega
      exact checkPair_flip_of_no_range (H j i hj hi hne hji) hr
  · intro H i j hi hj hne _
    exact H i j hi hj (Ne.symm hne)

theorem CheckPortCollision_none_iff_pairwise (ports : List PortEntry) :
    CheckPortCollision ports = none ↔
      ports.Pairwise (fun a b => checkPair a b = none ∧ checkPair b a = none) := by
  rw [CheckPortCollision_none_iff_allPairs, List.pairwise_iff_getElem]
  constructor
  · intro H i j hi hj hij
    constructor
    · have h := H i j hi hj (by omega)
      rwa [entryAt_eq_get ports i hi, entryAt_eq_get ports j hj] at h
    · have h := H j i hj hi (by omega)
      rwa [entryAt_eq_get ports j hj, entryAt_eq_get ports i hi] at h
  · intro H i j hi hj hne
    rcases Nat.lt_or_ge i j with hlt | hge
    · have h := (H i j hi hj hlt).1
      rwa [entryAt_eq_get ports i hi, entryAt_eq_get ports j hj]
    · have hlt : j < i := by omega
      have h := (H j i hj hi hlt).2
      rwa [entryAt_eq_get ports i hi, entryAt_eq_get ports j hj]

theorem CheckPortCollision_eq_some {ports : List PortEntry} {e : CollisionError}
    (h : CheckPortCollision ports = some e) :
    ∃ i j, i < ports.length ∧ j < ports.length ∧ j ≠ i ∧
      checkPair (entryAt ports i) (entryAt ports j) = some e := by
  unfold CheckPortCollision at h
  obtain ⟨i, hiMem, hi⟩ := List.exists_of_findSome?_eq_some h
  unfold innerScan at hi
  obtain ⟨j, hjMem, hj⟩ := List.exists_of_findSome?_eq_some hi
  rcases eq_or_ne j i with rfl | hne
  · rw [if_pos rfl] at hj
    cases hj
  · rw [if_neg hne] at hj
    exact ⟨i, j, by simpa [List.mem_range] using hiMem, (mem_range'_sub.1 hjMem).2, hne, hj⟩

theorem checkPair_some_cases {a b : PortEntry} {e : CollisionError}
    (h : checkPair a b = some e) :
    (e.isRangeViolation = true ∧ rangeViolationCond a b) ∨
    (e.isConflict = true ∧ portConflictCond a b) := by
  unfold checkPair at h
  by_cases h1 : a.address ≠ b.address
  · rw [if_pos h1] at h
    cases h
  · rw [if_neg h1] at h
    by_cases h2 : a.hasRange = true ∧ (b.port < a.rangeMin ∨ a.rangeMax < b.port)
    · rw [if_pos h2] at h
      cases h
      exact Or.inl ⟨rfl, not_ne_iff.1 h1, h2.1, h2.2⟩
    · rw [if_neg h2] at h
      by_cases h3 : a.port = b.port
      · rw [if_pos h3] at h
        cases h
        exact Or.inr ⟨rfl, not_ne_iff.1 h1, h3⟩
      · rw [if_neg h3] at h
        cases h

theorem mem_comparisonTrace {ports : List PortEntry} {i j : Nat} :
    (i, j) ∈ comparisonTrace ports ↔
      i < ports.length ∧ j < ports.length ∧ j ≠ i ∧ innerStart ports i ≤ j := by
  unfold comparisonTrace
  simp only [List.mem_flatMap, List.mem_filterMap, List.mem_range]
  constructor
  · rintro ⟨i', hi', j', hj', hij⟩
    by_cases h : j' = i'
    · rw [if_pos h] at hij
      cases hij
    · rw [if_neg h] at hij
      obtain ⟨rfl, rfl⟩ := Prod.mk.inj (Option.some.inj hij)
      have hmem := mem_range'_sub.1 hj'
      exact ⟨hi', hmem.2, h, hmem.1⟩
  · rintro ⟨hi, hj, hne, hstart⟩
    exact ⟨i, hi, j, mem_range'_sub.2 ⟨hstart, hj⟩, by rw [if_neg hne]⟩

/-- C1 counterexample: with HTTP at 0.0.0.0:8005 and SageMaker at
0.0.0.0:8005 declaring range [8000, 8002], the range-violation condition
holds (SageMaker declares a range and HTTP's port 8005 lies outside it),
yet the check throws `PortConflict`, not `PortRangeViolation`: the conflict
check for the pair runs first because HTTP is enumerated before the
range-declaring entry. -/
theorem checkPortCollision_counterexample :
    rangeViolationCond
        { service := "SageMaker", address := "0.0.0.0", port := 8005,
          hasRange := true, rangeMin := 8000, rangeMax := 8002 }
        { service := "HTTP", address := "0.0.0.0", port := 8005,
          hasRange := false, rangeMin := -1, rangeMax := -1 } ∧
    CheckPortCollision
        [{ service := "HTTP", address := "0.0.0.0", port := 8005,
           hasRange := false, rangeMin := -1, rangeMax := -1 },
         { service := "SageMaker", address := "0.0.0.0", port := 8005,
           hasRange := true, rangeMin := 8000, rangeMax := 8002 }] =
      some (.portConflict "HTTP" "SageMaker" "0.0.0.0" 8005) := by
  exact ⟨⟨rfl, rfl, by decide⟩, by rfl⟩

/-- C1 amended: the check succeeds exactly when no pair of distinct entries
satisfies the range-violation condition or the port-conflict condition;
when a range-violation pair exists and no pair of same-address entries
shares the exact same port, it fails with a `PortRangeViolation`; when a
same-address-same-port pair exists and no range-violation pair exists, it
fails with a `PortConflict`. (When both conditions occur at once, a single
exception is thrown and its kind depends on the enumeration order.) -/
theorem checkPortCollision_spec (ports : List PortEntry) :
    (CheckPortCollision ports = none ↔
      ∀ i j : Fin ports.length, i ≠ j →
        ¬rangeViolationCond (ports.get i) (ports.get j) ∧
        ¬portConflictCond (ports.get i) (ports.get j)) ∧
    ((∃ i j : Fin ports.length, i ≠ j ∧ rangeViolationCond (ports.get i) (ports.get j)) →
      (∀ i j : Fin ports.length, i ≠ j → ¬portConflictCond (ports.get i) (ports.get j)) →
      ∃ e, CheckPortCollision ports = some e ∧ e.isRangeViolation = true) ∧
    ((∃ i j : Fin ports.length, i ≠ j ∧ portConflictCond (ports.get i) (ports.get j)) →
      (∀ i j : Fin ports.length, i ≠ j → ¬rangeViolationCond (ports.get i) (ports.get j)) →
      ∃ e, CheckPortCollision ports = some e ∧ e.isConflict = true) := by
  have hiff : CheckPortCollision ports = none ↔
      ∀ i j : Fin ports.length, i ≠ j →
        ¬rangeViolationCond (ports.get i) (ports.get j) ∧
        ¬portConflictCond (ports.get i) (ports.get j) := by
    rw [CheckPortCollision_none_iff_allPairs]
    constructor
    · intro H i j hne
      have h := H i.1 j.1 i.2 j.2 (by simpa [Fin.ext_iff] using hne)
      rw [entryAt_eq_get ports i.1 i.2, entryAt_eq_get ports j.1 j.2] at h
      exact (checkPair_eq_none_iff _ _).1 h
    · intro H i j hi hj hne
      rw [entryAt_eq_get ports i hi, entryAt_eq_get ports j hj]
      exact (checkPair_eq_none_iff _ _).2 (H ⟨i, hi⟩ ⟨j, hj⟩ (by simpa [Fin.ext_iff] using hne))
  refine ⟨hiff, ?_, ?_⟩
  · rintro ⟨i, j, hne, hrv⟩ hnoConf
    rcases he : CheckPortCollision ports with _ | e
    · exact absurd ((hiff.1 he i j hne).1) (by exact fun hx => hx hrv)
    · refine ⟨e, rfl, ?_⟩
      obtain ⟨i', j', hi', hj', hne', hcp⟩ := CheckPortCollision_eq_some he
      rcases checkPair_some_cases hcp with ⟨hk, _⟩ | ⟨hk, hconf⟩
      · exact hk
      · rw [entryAt_eq_get ports i' hi', entryAt_eq_get ports j' hj'] at hconf
        exact absurd hconf
          (hnoConf ⟨i', hi'⟩ ⟨j', hj'⟩ (by simpa [Fin.ext_iff] using Ne.symm hne'))
  · rintro ⟨i, j, hne, hcf⟩ hnoRv
    rcases he : CheckPortCollision ports with _ | e
    · exact absurd ((hiff.1 he i j hne).2) (by exact fun hx => hx hcf)
    · refine ⟨e, rfl, ?_⟩
      obtain ⟨i', j', hi', hj', hne', hcp⟩ := CheckPortCollision_eq_some he
      rcases checkPair_some_cases hcp with ⟨hk, hrv⟩ | ⟨hk, _⟩
      · rw [entryAt_eq_get ports i' hi', entryAt_eq_get ports j' hj'] at hrv
        exact absurd hrv
          (hnoRv ⟨i', hi'⟩ ⟨j', hj'⟩ (by simpa [Fin.ext_iff] using Ne.symm hne'))
      · exact hk

/-- Witness for C1: with HTTP at 0.0.0.0:8005 and SageMaker at 0.0.0.0:8001
declaring range [8000, 8002], the range-violation condition holds, no two
entries share a port, and the check fails with a `PortRangeViolation`. -/
theorem checkPortCollision_spec_witness :
    ∃ e, CheckPortCollision
        [{ service := "HTTP", address := "0.0.0.0", port := 8005,
           hasRange := false, rangeMin := -1, rangeMax := -1 },
         { service := "SageMaker", address := "0.0.0.0", port := 8001,
           hasRange := true, rangeMin := 8000, rangeMax := 8002 }] =
      some e ∧ e.isRangeViolation = true :=
  (checkPortCollision_spec
    [{ service := "HTTP", address := "0.0.0.0", port := 8005,
       hasRange := false, rangeMin := -1, rangeMax := -1 },
     { service := "SageMaker", address := "0.0.0.0", port := 8001,
       hasRange := true, rangeMin := 8000, rangeMax := 8002 }]).2.1
    (by decide) (by decide)

/-- C2 counterexample: with HTTP at 0.0.0.0:8005 and SageMaker at
0.0.0.0:8005 declaring a range, the loop structure enumerates the unordered
pair of the two entries twice — once in each direction — because the
range-declaring entry rescans from the beginning; moreover the verdict is
not independent of the enumeration order: one order throws `PortConflict`,
the reversed order throws `PortRangeViolation`. -/
theorem comparisonTrace_counterexample :
    comparisonTrace
        [{ service := "HTTP", address := "0.0.0.0", port := 8005,
           hasRange := false, rangeMin := -1, rangeMax := -1 },
         { service := "SageMaker", address := "0.0.0.0", port := 8005,
           hasRange := true, rangeMin := 8000, rangeMax := 8002 }] = [(0, 1), (1, 0)] ∧
    CheckPortCollision
        [{ service := "HTTP", address := "0.0.0.0", port := 8005,
           hasRange := false, rangeMin := -1, rangeMax := -1 },
         { service := "SageMaker", address := "0.0.0.0", port := 8005,
           hasRange := true, rangeMin := 8000, rangeMax := 8002 }] =
      some (.portConflict "HTTP" "SageMaker" "0.0.0.0" 8005) ∧
    CheckPortCollision
        [{ service := "SageMaker", address := "0.0.0.0", port := 8005,
           hasRange := true, rangeMin := 8000, rangeMax := 8002 },
         { service := "HTTP", address := "0.0.0.0", port := 8005,
           hasRange := false, rangeMin := -1, rangeMax := -1 }] =
      some (.portRangeViolation "HTTP" 8005 8000 8002) := by
  exact ⟨by rfl, by rfl, by rfl⟩

/-- C2 amended: the loop never compares an entry against itself and
enumerates every unordered pair of distinct entries at least once; the pair
of positions i < j is enumerated a second time (in the reverse direction)
exactly when the entry at the later position j declares a port range; and
whether the check succeeds is independent of the enumeration order (which
exception is thrown when it fails is not). -/
theorem comparisonTrace_spec (ports ports' : List PortEntry) (i j : Nat) :
    ((i, i) ∉ comparisonTrace ports) ∧
    (i < j → j < ports.length → (i, j) ∈ comparisonTrace ports) ∧
    (i < j → j < ports.length →
      ((j, i) ∈ comparisonTrace ports ↔ (entryAt ports j).hasRange = true)) ∧
    (ports.Perm ports' →
      (CheckPortCollision ports = none ↔ CheckPortCollision ports' = none)) := by
  refine ⟨?_, ?_, ?_, ?_⟩
  · intro hmem
    exact (mem_comparisonTrace.1 hmem).2.2.1 rfl
  · intro hij hj
    refine mem_comparisonTrace.2 ⟨by omega, hj, by omega, ?_⟩
    unfold innerStart
    split
    · omega
    · omega
  · intro hij hj
    constructor
    · intro hmem
      have h := (mem_comparisonTrace.1 hmem).2.2.2
      unfold innerStart at h
      by_cases hb : (entryAt ports j).hasRange
      · simpa using hb
      · rw [if_neg hb] at h
        omega
    · intro hb
      refine mem_comparisonTrace.2 ⟨hj, by omega, by omega, ?_⟩
      unfold innerStart
      rw [if_pos hb]
      omega
  · intro hperm
    rw [CheckPortCollision_none_iff_pairwise, CheckPortCollision_none_iff_pairwise]
    exact hperm.pairwise_iff fun hx => ⟨hx.2, hx.1⟩

/-- Witness for C2: instantiation of the trace/order theorem at a concrete
two-entry list and its reversal. -/
theorem comparisonTrace_spec_witness :
    ((1, 1) ∉ comparisonTrace
        [{ service := "HTTP", address := "0.0.0.0", port := 8005,
           hasRange := false, rangeMin := -1, rangeMax := -1 },
         { service := "SageMaker", address := "0.0.0.0", port := 8001,
           hasRange := true, rangeMin := 8000, rangeMax := 8002 }]) ∧
    ((0, 1) ∈ comparisonTrace
        [{ service := "HTTP", address := "0.0.0.0", port := 8005,
           hasRange := false, rangeMin := -1, rangeMax := -1 },
         { service := "SageMaker", address := "0.0.0.0", port := 8001,
           hasRange := true, rangeMin := 8000, rangeMax := 8002 }]) ∧
    (CheckPortCollision
        [{ service := "HTTP", address := "0.0.0.0", port := 8005,
           hasRange := false, rangeMin := -1, rangeMax := -1 },
         { service := "SageMaker", address := "0.0.0.0", port := 8001,
           hasRange := true, rangeMin := 8000, rangeMax := 8002 }] = none ↔
      CheckPortCollision
        [{ service := "SageMaker", address := "0.0.0.0", port := 8001,
           hasRange := true, rangeMin := 8000, rangeMax := 8002 },
         { service := "HTTP", address := "0.0.0.0", port := 8005,
           hasRange := false, rangeMin := -1, rangeMax := -1 }] = none) := by
  have h := comparisonTrace_spec
    [{ service := "HTTP", address := "0.0.0.0", port := 8005,
       hasRange := false, rangeMin := -1, rangeMax := -1 },
     { service := "SageMaker", address := "0.0.0.0", port := 8001,
       hasRange := true, rangeMin := 8000, rangeMax := 8002 }]
    [{ service := "SageMaker", address := "0.0.0.0", port := 8001,
       hasRange := true, rangeMin := 8000, rangeMax := 8002 },
     { service := "HTTP", address := "0.0.0.0", port := 8005,
       hasRange := false, rangeMin := -1, rangeMax := -1 }] 0 1
  have h11 := comparisonTrace_spec
    [{ service := "HTTP", address := "0.0.0.0", port := 8005,
       hasRange := false, rangeMin := -1, rangeMax := -1 },
     { service := "SageMaker", address := "0.0.0.0", port := 8001,
       hasRange := true, rangeMin := 8000, rangeMax := 8002 }]
    [{ service := "SageMaker", address := "0.0.0.0", port := 8001,
       hasRange := true, rangeMin := 8000, rangeMax := 8002 },
     { service := "HTTP", address := "0.0.0.0", port := 8005,
       hasRange := false, rangeMin := -1, rangeMax := -1 }] 1 1
  exact ⟨h11.1, h.2.1 (by decide) (by decide), h.2.2.2 (List.Perm.swap _ _ _)⟩

/-!
Lemmas about the aggregation fold.
-/

theorem processEvent_fields {st st' : ParseState} {e : TritonEvent}
    (h : processEvent st e = .ok st') :
    st'.cache_size_present = (st.cache_size_present || isCacheSizeEvent e) ∧
    st'.cache_config_present = (st.cache_config_present || isCacheConfigEvent e) ∧
    st'.cuda_pools = st.cuda_pools ++ cudaPairsOf [e] := by
  cases e with
  | modelControlMode arg =>
    simp only [processEvent] at h
    split_ifs at h <;> cases h <;>
      simp [isCacheSizeEvent, isCacheConfigEvent, cudaPairsOf]
  | pollRepoSecs arg =>
    simp only [processEvent] at h
    cases hp : ParseOptionInt arg <;> rw [hp] at h
    · cases h
    · cases h
      simp [isCacheSizeEvent, isCacheConfigEvent, cudaPairsOf]
  | responseCacheByteSize arg =>
    simp only [processEvent] at h
    cases hp : ParseOptionInt64 arg <;> rw [hp] at h
    · cases h
    · cases h
      simp [isCacheSizeEvent, isCacheConfigEvent, cudaPairsOf]
  | cacheConfig arg =>
    simp only [processEvent] at h
    cases hp : ParseCacheConfigOption arg <;> rw [hp] at h
    · cases h
    · cases h
      simp [isCacheSizeEvent, isCacheConfigEvent, cudaPairsOf]
  | grpcUseSsl arg =>
    simp only [processEvent] at h
    cases hp : ParseOptionBool arg <;> rw [hp] at h
    · cases h
    · cases h
      simp [isCacheSizeEvent, isCacheConfigEvent, cudaPairsOf]
  | grpcUseSslMutual arg =>
    simp only [processEvent] at h
    cases hp : ParseOptionBool arg <;> rw [hp] at h
    · cases h
    · cases h
      simp [isCacheSizeEvent, isCacheConfigEvent, cudaPairsOf]
  | cudaMemoryPoolByteSize arg =>
    simp only [processEvent] at h
    cases hp : ParsePairIntUInt64 arg <;> rw [hp] at h
    · cases h
    · cases h
      simp [isCacheSizeEvent, isCacheConfigEvent, cudaPairsOf, hp, Except.toOption]
  | other =>
    cases h
    simp [isCacheSizeEvent, isCacheConfigEvent, cudaPairsOf]

theorem cudaPairsOf_cons (e : TritonEvent) (rest : List TritonEvent) :
    cudaPairsOf (e :: rest) = cudaPairsOf [e] ++ cudaPairsOf rest := by
  rcases e with a | a | a | a | a | a | a | _ <;>
    simp [cudaPairsOf, List.filterMap_cons]
  cases (ParsePairIntUInt64 a).toOption <;> simp

theorem aggregate_fields {events : List TritonEvent} {st pre : ParseState}
    (h : aggregateEventsFrom st events = .ok pre) :
    pre.cache_size_present = (st.cache_size_present || events.any isCacheSizeEvent) ∧
    pre.cache_config_present = (st.cache_config_present || events.any isCacheConfigEvent) ∧
    pre.cuda_pools = st.cuda_pools ++ cudaPairsOf events := by
  induction events generalizing st with
  | nil =>
    simp only [aggregateEventsFrom, Except.ok.injEq] at h
    subst h
    simp [cudaPairsOf]
  | cons e rest ih =>
    simp only [aggregateEventsFrom] at h
    cases hp : processEvent st e <;> rw [hp] at h
    · cases h
    · rename_i st'
      obtain ⟨h1, h2, h3⟩ := processEvent_fields hp
      obtain ⟨g1, g2, g3⟩ := ih h
      refine ⟨?_, ?_, ?_⟩
      · rw [g1, h1, List.any_cons]
        cases st.cache_size_present <;> cases isCacheSizeEvent e <;> simp
      · rw [g2, h2, List.any_cons]
        cases st.cache_config_present <;> cases isCacheConfigEvent e <;> simp
      · rw [g3, h3, List.append_assoc, ← cudaPairsOf_cons]

theorem aggregate_append_ok {st st' : ParseState} {l1 : List TritonEvent}
    (l2 : List TritonEvent) (h : aggregateEventsFrom st l1 = .ok st') :
    aggregateEventsFrom st (l1 ++ l2) = aggregateEventsFrom st' l2 := by
  induction l1 generalizing st with
  | nil =>
    simp only [aggregateEventsFrom, Except.ok.injEq] at h
    subst h
    rfl
  | cons e rest ih =>
    simp only [aggregateEventsFrom, List.cons_append] at h ⊢
    cases hp : processEvent st e <;> rw [hp] at h
    · cases h
    · exact ih h

theorem lastSizeFor_foldl_init (pools : List (Int × Nat)) (acc : Option Nat) (d : Int) :
    pools.foldl (fun a q => if q.1 = d then some q.2 else a) acc =
      match lastSizeFor pools d with
      | some v => some v
      | none => acc := by
  induction pools generalizing acc with
  | nil => rfl
  | cons q t ih =>
    simp only [lastSizeFor, List.foldl_cons]
    by_cases hq : q.1 = d
    · rw [if_pos hq, if_pos hq, ih (some q.2)]
      rcases hL : lastSizeFor t d with _ | v <;> simp only [hL]
    · rw [if_neg hq, if_neg hq, ih acc]
      rfl

theorem applyCudaPools_cons (q : Int × Nat) (t : List (Int × Nat)) (m : Int → Option Nat) :
    applyCudaPools (q :: t) m =
      applyCudaPools t (fun d => if d = q.1 then some q.2 else m d) := rfl

theorem lastSizeFor_cons (q : Int × Nat) (t : List (Int × Nat)) (d : Int) :
    lastSizeFor (q :: t) d =
      match lastSizeFor t d with
      | some v => some v
      | none => if q.1 = d then some q.2 else none := by
  show t.foldl (fun a p => if p.1 = d then some p.2 else a)
      (if q.1 = d then some q.2 else none) = _
  rw [lastSizeFor_foldl_init]

theorem applyCudaPools_match (pools : List (Int × Nat)) (m : Int → Option Nat) (d : Int) :
    applyCudaPools pools m d =
      match lastSizeFor pools d with
      | some v => some v
      | none => m d := by
  induction pools generalizing m with
  | nil => rfl
  | cons q t ih =>
    rw [applyCudaPools_cons, ih, lastSizeFor_cons]
    rcases hL : lastSizeFor t d with _ | v <;> simp only [hL]
    by_cases hq : d = q.1
    · simp [hq]
    · rw [if_neg hq, if_neg (fun h : q.1 = d => hq h.symm)]

theorem applyCudaPools_eq_lastSizeFor (pools : List (Int × Nat)) (d : Int) :
    applyCudaPools pools (fun _ => none) d = lastSizeFor pools d := by
  rw [applyCudaPools_match]
  cases lastSizeFor pools d <;> rfl

/-- C5 counterexample: repeating the CUDA-memory-pool flag for device 0
leaves two entries for that device in the `cuda_pools_` field after
aggregation and validation (the field is a vector appended to with
`push_back`), contradicting the claim that the field holds at most one
entry per device. -/
theorem cudaPools_counterexample :
    (tritonParse [TritonEvent.cudaMemoryPoolByteSize "0:100".toList,
        TritonEvent.cudaMemoryPoolByteSize "0:200".toList]).map
      (fun st => st.cuda_pools) = .ok [(0, 100), (0, 200)] ∧
    ¬ (List.map Prod.fst [((0 : Int), (100 : Nat)), (0, 200)]).Nodup := by
  exact ⟨by rfl, by decide⟩

/-- C5 amended: the per-device CUDA pool field accumulates every
successfully parsed (device, size) pair in flag order (multiple entries per
device are possible); the override semantics lives in the in-order marshal
of that list: applying it to an empty per-device map yields, for each
device, the size from the last flag occurrence for that device. -/
theorem cudaPools_spec (events : List TritonEvent) (st0 pre : ParseState) (d : Int)
    (hagg : aggregateEventsFrom st0 events = .ok pre) :
    pre.cuda_pools = st0.cuda_pools ++ cudaPairsOf events ∧
    applyCudaPools pre.cuda_pools (fun _ => none) d = lastSizeFor pre.cuda_pools d :=
  ⟨(aggregate_fields hagg).2.2, applyCudaPools_eq_lastSizeFor _ d⟩

/-- Witness for C5: instantiation at two occurrences of the flag for
device 0. -/
theorem cudaPools_spec_witness :
    ({ initParams with cuda_pools := [((0 : Int), (100 : Nat)), (0, 200)] }
        : ParseState).cuda_pools =
      initParams.cuda_pools ++ cudaPairsOf
        [TritonEvent.cudaMemoryPoolByteSize "0:100".toList,
         TritonEvent.cudaMemoryPoolByteSize "0:200".toList] ∧
    applyCudaPools ({ initParams with
        cuda_pools := [((0 : Int), (100 : Nat)), (0, 200)] } : ParseState).cuda_pools
      (fun _ => none) 0 =
    lastSizeFor ({ initParams with
        cuda_pools := [((0 : Int), (100 : Nat)), (0, 200)] } : ParseState).cuda_pools 0 :=
  cudaPools_spec
    [TritonEvent.cudaMemoryPoolByteSize "0:100".toList,
     TritonEvent.cudaMemoryPoolByteSize "0:200".toList]
    initParams _ 0 (by rfl)

/-- C7: after post-parsing validation, the control mode is whatever
aggregation produced; when it is not "poll" the repository poll interval is
forced to zero regardless of any supplied value, and when it is "poll" the
aggregated interval is left unchanged. -/
theorem pollSecs_validation (events : List TritonEvent) (pre st : ParseState)
    (hagg : aggregateEventsFrom initParams events = .ok pre)
    (hok : tritonParse events = .ok st) :
    st.control_mode = pre.control_mode ∧
    (pre.control_mode ≠ ControlMode.modePoll → st.repository_poll_secs = 0) ∧
    (pre.control_mode = ControlMode.modePoll →
      st.repository_poll_secs = pre.repository_poll_secs) := by
  unfold tritonParse at hok
  rw [hagg] at hok
  simp only [postValidate] at hok
  by_cases hm : pre.control_mode ≠ ControlMode.modePoll
  · rw [if_pos hm] at hok
    split_ifs at hok
    cases hok
    exact ⟨rfl, fun _ => rfl, fun hp => absurd hp hm⟩
  · rw [if_neg hm] at hok
    split_ifs at hok
    cases hok
    exact ⟨rfl, fun hne => absurd (not_not.1 hm) hne, fun _ => rfl⟩

/-- Witness for C7: explicit control mode with a supplied poll interval of
5 seconds; validation forces the interval to zero. -/
theorem pollSecs_validation_witness :
    ({ initParams with
        control_mode := ControlMode.modeExplicit
        repository_poll_secs := 0 } : ParseState).control_mode =
      ({ initParams with
          control_mode := ControlMode.modeExplicit
          repository_poll_secs := 5 } : ParseState).control_mode ∧
    (({ initParams with
        control_mode := ControlMode.modeExplicit
        repository_poll_secs := 5 } : ParseState).control_mode ≠ ControlMode.modePoll →
      ({ initParams with
          control_mode := ControlMode.modeExplicit
          repository_poll_secs := 0 } : ParseState).repository_poll_secs = 0) ∧
    (({ initParams with
        control_mode := ControlMode.modeExplicit
        repository_poll_secs := 5 } : ParseState).control_mode = ControlMode.modePoll →
      ({ initParams with
          control_mode := ControlMode.modeExplicit
          repository_poll_secs := 0 } : ParseState).repository_poll_secs =
        ({ initParams with
            control_mode := ControlMode.modeExplicit
            repository_poll_secs := 5 } : ParseState).repository_poll_secs) :=
  pollSecs_validation
    [TritonEvent.modelControlMode "explicit".toList, TritonEvent.pollRepoSecs "5".toList]
    { initParams with
      control_mode := ControlMode.modeExplicit
      repository_poll_secs := 5 }
    { initParams with
      control_mode := ControlMode.modeExplicit
      repository_poll_secs := 0 }
    (by rfl) (by rfl)

/-- C8 counterexample: both cache flags appear in the event list, but the
legacy flag's argument is malformed, so the parse fails with a
`FormatError` from the value parser rather than with `ConflictingOptions`. -/
theorem cacheFlags_counterexample :
    [TritonEvent.responseCacheByteSize "abc".toList,
        TritonEvent.cacheConfig "local,a=b".toList].any isCacheSizeEvent = true ∧
    [TritonEvent.responseCacheByteSize "abc".toList,
        TritonEvent.cacheConfig "local,a=b".toList].any isCacheConfigEvent = true ∧
    tritonParse [TritonEvent.responseCacheByteSize "abc".toList,
        TritonEvent.cacheConfig "local,a=b".toList] =
      .error (.formatError "stoll: invalid argument") :=
  ⟨rfl, rfl, rfl⟩

/-- C8 amended: provided every supplied argument parses (aggregation
succeeds), the presence of both cache flags makes the parse fail with
`ConflictingOptions` naming both flag names, and the presence of exactly
one of them makes it succeed with the cache enabled. -/
theorem cacheFlags_spec (events : List TritonEvent) (pre : ParseState)
    (hagg : aggregateEventsFrom initParams events = .ok pre) :
    (events.any isCacheSizeEvent = true → events.any isCacheConfigEvent = true →
      tritonParse events =
        .error (.conflictingOptions "--response-cache-byte-size" "--cache-config")) ∧
    (events.any isCacheSizeEvent ≠ events.any isCacheConfigEvent →
      ∃ st, tritonParse events = .ok st ∧ st.enable_cache = true) := by
  obtain ⟨h1, h2, _⟩ := aggregate_fields hagg
  rw [show initParams.cache_size_present = false from rfl, Bool.false_or] at h1
  rw [show initParams.cache_config_present = false from rfl, Bool.false_or] at h2
  unfold tritonParse
  rw [hagg]
  simp only [postValidate]
  have hmidS : (if pre.control_mode ≠ ControlMode.modePoll then
      { pre with repository_poll_secs := 0 } else pre).cache_size_present =
      pre.cache_size_present := by
    split
    · rfl
    · rfl
  have hmidC : (if pre.control_mode ≠ ControlMode.modePoll then
      { pre with repository_poll_secs := 0 } else pre).cache_config_present =
      pre.cache_config_present := by
    split
    · rfl
    · rfl
  constructor
  · intro hs hc
    rw [if_pos ⟨by rw [hmidS, h1, hs], by rw [hmidC, h2, hc]⟩]
  · intro hxor
    have hcond : ¬((if pre.control_mode ≠ ControlMode.modePoll then
        { pre with repository_poll_secs := 0 } else pre).cache_size_present ∧
        (if pre.control_mode ≠ ControlMode.modePoll then
          { pre with repository_poll_secs := 0 } else pre).cache_config_present) := by
      rw [hmidS, hmidC, h1, h2]
      rintro ⟨ha, hb⟩
      exact hxor (ha.trans hb.symm)
    rw [if_neg hcond]
    refine ⟨_, rfl, ?_⟩
    show ((if pre.control_mode ≠ ControlMode.modePoll then
        { pre with repository_poll_secs := 0 } else pre).cache_size_present ||
        (if pre.control_mode ≠ ControlMode.modePoll then
          { pre with repository_poll_secs := 0 } else pre).cache_config_present) = true
    rw [hmidS, hmidC, h1, h2]
    cases hb : events.any isCacheSizeEvent <;> cases hc : events.any isCacheConfigEvent <;>
      simp_all

/-- Witness for C8: both flags with well-formed arguments give
`ConflictingOptions`; the config flag alone gives success with the cache
enabled. -/
theorem cacheFlags_spec_witness :
    tritonParse [TritonEvent.responseCacheByteSize "100".toList,
        TritonEvent.cacheConfig "local,a=b".toList] =
      .error (.conflictingOptions "--response-cache-byte-size" "--cache-config") ∧
    (∃ st, tritonParse [TritonEvent.cacheConfig "local,a=b".toList] = .ok st ∧
      st.enable_cache = true) := by
  constructor
  · exact (cacheFlags_spec
      [TritonEvent.responseCacheByteSize "100".toList,
       TritonEvent.cacheConfig "local,a=b".toList]
      { initParams with
        cache_size_present := true
        cache_config_present := true
        cache_config_settings :=
          [("local".toList, [("size".toList, "100".toList), ("a".toList, "b".toList)])] }
      (by rfl)).1 (by rfl) (by rfl)
  · exact (cacheFlags_spec
      [TritonEvent.cacheConfig "local,a=b".toList]
      { initParams with
        cache_config_present := true
        cache_config_settings := [("local".toList, [("a".toList, "b".toList)])] }
      (by rfl)).2 (by decide)

/-- C10: the grpc-use-ssl-mutual flag with a boolean argument that parses
to b sets the mutual-auth field to b and unconditionally forces the use-ssl
field to true, whatever the preceding events (in particular overriding an
earlier grpc-use-ssl=false). -/
theorem grpcUseSslMutual_forces_ssl (events : List TritonEvent) (v : List Char) (b : Bool)
    (st0 pre : ParseState) (hv : ParseOptionBool v = .ok b)
    (hagg : aggregateEventsFrom st0 events = .ok pre) :
    aggregateEventsFrom st0 (events ++ [.grpcUseSslMutual v]) =
      .ok { pre with use_mutual_auth := b, use_ssl := true } := by
  rw [aggregate_append_ok _ hagg]
  simp only [aggregateEventsFrom, processEvent, hv]

/-- Witness for C10: after grpc-use-ssl=false, grpc-use-ssl-mutual=false
still leaves use-ssl forced to true, with mutual auth false. -/
theorem grpcUseSslMutual_forces_ssl_witness :
    aggregateEventsFrom initParams
        ([TritonEvent.grpcUseSsl "false".toList] ++
          [TritonEvent.grpcUseSslMutual "false".toList]) =
      .ok { initParams with use_mutual_auth := false, use_ssl := true } :=
  grpcUseSslMutual_forces_ssl [TritonEvent.grpcUseSsl "false".toList] "false".toList false
    initParams { initParams with use_ssl := false } (by rfl) (by rfl)

end TritonCLI
